import Mathlib

/-!
Verification of the viseme segment recorder of the Lipsync demo page.

The recorder consumes (timestamp, viseme-label) samples once per animation
frame and produces a run-length-encoded list of labeled time segments,
exported as a JSON mouth-cues document.  Timestamps are modelled as
rationals; the JavaScript truthiness idiom x OR y on numbers and strings is
modelled by jsOr and jsOrStr.
-/

/-- A mouth cue: one time interval with an active viseme label. -/
structure Segment where
  start : ℚ
  «end» : ℚ
  value : String
deriving DecidableEq, Repr

/-- The module-level capture state of the page: mouthCues, currentViseme,
segmentStart, audioDuration. -/
structure RecorderState where
  mouthCues : List Segment
  currentViseme : String
  segmentStart : ℚ
  audioDuration : ℚ
deriving DecidableEq, Repr

/-- The exported JSON document: metadata (soundFile, duration) plus the
mouth cues. -/
structure ExportDocument where
  soundFile : String
  duration : ℚ
  mouthCues : List Segment
deriving DecidableEq, Repr

/-- round2 from the source: Math.round(t * 100) / 100, where Math.round
is floor(x + 1/2) (round half toward positive infinity). -/
def round2 (t : ℚ) : ℚ := (⌊t * 100 + 1 / 2⌋ : ℚ) / 100

/-- JavaScript a OR b on numbers (0 is falsy; NaN is out of the model). -/
def jsOr (a b : ℚ) : ℚ := if a ≠ 0 then a else b

/-- JavaScript a OR b on strings (the empty string is falsy). -/
def jsOrStr (a b : String) : String := if a ≠ "" then a else b

/-- resetCapture from the source: clears mouthCues, resets currentViseme
to X, segmentStart to 0 and audioDuration to 0. -/
def resetCapture (_s : RecorderState) : RecorderState :=
  { mouthCues := [], currentViseme := "X", segmentStart := 0, audioDuration := 0 }

/-- The state right after a reset. -/
def resetState : RecorderState :=
  { mouthCues := [], currentViseme := "X", segmentStart := 0, audioDuration := 0 }

/-- The capture step of analyzeAudio (source lines 113 to 134): on the very
first frame (no cues yet and time 0) adopt the sampled viseme; then, if the
viseme changed, close the open segment and start a new one. -/
def sample (s : RecorderState) (now : ℚ) (viseme : String) : RecorderState :=
  let s1 :=
    if s.mouthCues = [] ∧ now = 0 then
      { s with currentViseme := viseme, segmentStart := 0 }
    else s
  if viseme ≠ s1.currentViseme then
    { s1 with
        mouthCues := s1.mouthCues ++
          [{ start := round2 s1.segmentStart, «end» := round2 now,
             value := s1.currentViseme }],
        currentViseme := viseme,
        segmentStart := now }
  else s1

/-- The segment-closing step of finalizeAndDownloadJSON (source lines 151
to 158): push the open segment when segmentStart is at most endTime. -/
def closeSegment (s : RecorderState) (endTime : ℚ) : RecorderState :=
  if s.segmentStart ≤ endTime then
    { s with
        mouthCues := s.mouthCues ++
          [{ start := round2 s.segmentStart, «end» := round2 endTime,
             value := s.currentViseme }] }
  else s

/-- The finalize operation of the spec: close the open segment at endTime
and return the full cue list. -/
def finalize (s : RecorderState) (endTime : ℚ) : List Segment :=
  (closeSegment s endTime).mouthCues

/-- The document-building step of finalizeAndDownloadJSON (source lines 160
to 167), as the spec's exportDocument operation: wraps the current cue list
with metadata, reading the state only. -/
def exportDocument (s : RecorderState) (sourceName : String)
    (endTime : ℚ) : ExportDocument :=
  { soundFile := jsOrStr sourceName "unknown"
    duration := round2 endTime
    mouthCues := s.mouthCues }

/-- finalizeAndDownloadJSON from the source (lines 148 to 185, the DOM
download plumbing aside): endTime is duration OR currentTime OR 0; the open
segment is closed when segmentStart is at most endTime; the JSON document
is built from the resulting state. -/
def finalizeAndDownloadJSON (s : RecorderState) (duration currentTime : ℚ)
    (fileName : String) : RecorderState × ExportDocument :=
  let endTime := jsOr duration (jsOr currentTime 0)
  let s1 :=
    if s.segmentStart ≤ endTime then
      { s with
          mouthCues := s.mouthCues ++
            [{ start := round2 s.segmentStart, «end» := round2 endTime,
               value := s.currentViseme }] }
    else s
  (s1,
   { soundFile := jsOrStr fileName "unknown"
     duration := round2 endTime
     mouthCues := s1.mouthCues })

/-- The close-any-open-segment block of the stop handler (source lines 226
to 240): with no cues push the degenerate X segment, else close the open
segment only when segmentStart is strictly below endTime, where endTime is
currentTime OR 0. -/
def stopCloseBlock (s : RecorderState) (currentTime : ℚ) : RecorderState :=
  if s.mouthCues = [] then
    { s with mouthCues := [{ start := 0, «end» := 0, value := "X" }] }
  else
    let endTime := jsOr currentTime 0
    if s.segmentStart < endTime then
      { s with
          mouthCues := s.mouthCues ++
            [{ start := round2 s.segmentStart, «end» := round2 endTime,
               value := s.currentViseme }] }
    else s

/-- The stop handler (source lines 218 to 262): it sets currentTime to 0,
runs the close block, then calls finalizeAndDownloadJSON and resets; the
downloaded document is returned alongside the final state. -/
def stopHandler (s : RecorderState) (duration : ℚ)
    (fileName : String) : RecorderState × ExportDocument :=
  let currentTime : ℚ := 0
  let s1 := stopCloseBlock s currentTime
  let r := finalizeAndDownloadJSON s1 duration currentTime fileName
  (resetCapture r.1, r.2)

/-- Fold a list of (time, label) sample calls over the recorder state. -/
def runSamples (s : RecorderState) (calls : List (ℚ × String)) : RecorderState :=
  calls.foldl (fun st c => sample st c.1 c.2) s

/-- Contiguity of a cue list: each segment ends where the next one starts. -/
def Contig (l : List Segment) : Prop :=
  List.Chain' (fun a b => a.«end» = b.start) l

/-- A rational is an integer number of hundredths. -/
def Cent (q : ℚ) : Prop := ∃ n : ℤ, q = (n : ℚ) / 100

/-- A well-formed segment: start at most end, both on the hundredth grid. -/
def GoodSeg (a : Segment) : Prop := a.start ≤ a.«end» ∧ Cent a.start ∧ Cent a.«end»

/-- Invariant carrying the contiguity of the cue list: first cue starts at
0, adjacent cues meet, the last cue ends at the rounded open-segment start,
and before any cue is recorded the open segment starts at 0. -/
def InvC (s : RecorderState) : Prop :=
  (∀ a ∈ s.mouthCues.head?, a.start = 0) ∧
  Contig s.mouthCues ∧
  (∀ a ∈ s.mouthCues.getLast?, a.«end» = round2 s.segmentStart) ∧
  (s.mouthCues = [] → s.segmentStart = 0)

/-- Invariant for the numeric claim: all recorded cues are well formed and
the open segment started no later than the time bound t0. -/
def InvN (s : RecorderState) (t0 : ℚ) : Prop :=
  (∀ a ∈ s.mouthCues, GoodSeg a) ∧ s.segmentStart ≤ t0

theorem round2_zero : round2 0 = 0 := by norm_num [round2]

theorem round2_mono {a b : ℚ} (h : a ≤ b) : round2 a ≤ round2 b := by
  have h1 : ⌊a * 100 + 1 / 2⌋ ≤ ⌊b * 100 + 1 / 2⌋ :=
    Int.floor_le_floor (by linarith)
  have h2 : ((⌊a * 100 + 1 / 2⌋ : ℚ)) ≤ (⌊b * 100 + 1 / 2⌋ : ℚ) := by
    exact_mod_cast h1
  unfold round2
  linarith

theorem cent_round2 (t : ℚ) : Cent (round2 t) := ⟨⌊t * 100 + 1 / 2⌋, rfl⟩

/-- Case analysis of the capture step: on the first frame only the label
and segment start are adopted; otherwise an unchanged label is a no-op
and a changed label closes the open segment and opens a new one. -/
theorem sample_cases (s : RecorderState) (t : ℚ) (v : String) :
    sample s t v =
      if s.mouthCues = [] ∧ t = 0 then
        { s with currentViseme := v, segmentStart := 0 }
      else if v = s.currentViseme then s
      else
        { s with
            mouthCues := s.mouthCues ++
              [{ start := round2 s.segmentStart, «end» := round2 t,
                 value := s.currentViseme }],
            currentViseme := v, segmentStart := t } := by
  unfold sample
  by_cases h1 : s.mouthCues = [] ∧ t = 0
  · simp [h1]
  · simp only [if_neg h1]
    by_cases h2 : v = s.currentViseme
    · simp [h2]
    · simp [h2]

theorem contig_concat {l : List Segment} {x : Segment}
    (hc : Contig l) (hl : ∀ a ∈ l.getLast?, a.«end» = x.start) :
    Contig (l ++ [x]) := by
  unfold Contig at *
  rw [List.chain'_append]
  refine ⟨hc, List.chain'_singleton x, ?_⟩
  intro a ha b hb
  simp only [List.head?_cons, Option.mem_some_iff] at hb
  subst hb
  exact hl a ha

theorem head_concat_start {l : List Segment} {x : Segment}
    (hh : ∀ a ∈ l.head?, a.start = 0) (hx : l = [] → x.start = 0) :
    ∀ a ∈ (l ++ [x]).head?, a.start = 0 := by
  cases l with
  | nil => simpa using hx rfl
  | cons b bl =>
      intro a ha
      simp only [List.cons_append, List.head?_cons, Option.mem_some_iff] at ha
      subst ha
      exact hh b (by simp)

theorem invC_sample (s : RecorderState) (t : ℚ) (v : String) (h : InvC s) :
    InvC (sample s t v) := by
  obtain ⟨hh, hc, hl, hemp⟩ := h
  rw [sample_cases]
  by_cases h1 : s.mouthCues = [] ∧ t = 0
  · rw [if_pos h1]
    exact ⟨hh, hc, by simp [h1.1], fun _ => rfl⟩
  · rw [if_neg h1]
    by_cases h2 : v = s.currentViseme
    · rw [if_pos h2]
      exact ⟨hh, hc, hl, hemp⟩
    · rw [if_neg h2]
      refine ⟨?_, ?_, ?_, ?_⟩
      · exact head_concat_start hh (fun hnil => by simp [hemp hnil, round2_zero])
      · exact contig_concat hc hl
      · intro a ha
        simp only [List.getLast?_concat, Option.mem_some_iff] at ha
        subst ha
        rfl
      · intro habs
        simp at habs

theorem invC_run (calls : List (ℚ × String)) :
    ∀ s : RecorderState, InvC s → InvC (runSamples s calls) := by
  induction calls with
  | nil => exact fun s h => h
  | cons c cs ih => exact fun s h => ih _ (invC_sample s c.1 c.2 h)

theorem invC_reset : InvC resetState := by
  refine ⟨?_, ?_, ?_, ?_⟩ <;> simp [resetState, Contig]

theorem invC_finalize (s : RecorderState) (e : ℚ) (h : InvC s) :
    Contig (finalize s e) ∧ ∀ a ∈ (finalize s e).head?, a.start = 0 := by
  obtain ⟨hh, hc, hl, hemp⟩ := h
  unfold finalize closeSegment
  by_cases hle : s.segmentStart ≤ e
  · rw [if_pos hle]
    exact ⟨contig_concat hc hl,
           head_concat_start hh (fun hnil => by simp [hemp hnil, round2_zero])⟩
  · rw [if_neg hle]
    exact ⟨hc, hh⟩

theorem invN_sample (s : RecorderState) (t0 t : ℚ) (v : String)
    (h : InvN s t0) (ht : t0 ≤ t) : InvN (sample s t v) t := by
  obtain ⟨hg, hss⟩ := h
  rw [sample_cases]
  by_cases h1 : s.mouthCues = [] ∧ t = 0
  · rw [if_pos h1]
    exact ⟨hg, by simp [h1.2]⟩
  · rw [if_neg h1]
    by_cases h2 : v = s.currentViseme
    · rw [if_pos h2]
      exact ⟨hg, le_trans hss ht⟩
    · rw [if_neg h2]
      refine ⟨?_, le_refl t⟩
      intro a ha
      rcases List.mem_append.1 ha with ha | ha
      · exact hg a ha
      · simp only [List.mem_singleton] at ha
        subst ha
        exact ⟨round2_mono (le_trans hss ht), cent_round2 _, cent_round2 _⟩

theorem invN_run (calls : List (ℚ × String)) :
    ∀ (s : RecorderState) (t0 : ℚ), InvN s t0 →
      List.Chain' (fun a b => a ≤ b) (t0 :: calls.map Prod.fst) →
      ∃ t1, InvN (runSamples s calls) t1 := by
  induction calls with
  | nil => exact fun s t0 h _ => ⟨t0, h⟩
  | cons c cs ih =>
      intro s t0 h hc
      rw [List.map_cons, List.chain'_cons] at hc
      exact ih _ _ (invN_sample s t0 c.1 c.2 h hc.1) hc.2

/-- Claim C1: for every sequence of sample calls from a reset state whose
first sample is at time 0 and whose times are non-decreasing, the segment
list returned by finalize is contiguous (each segment ends where the next
starts) and its first segment starts at 0. -/
theorem c1_finalize_contiguous (calls : List (ℚ × String)) (endTime : ℚ)
    (_hfirst : ∀ c ∈ calls.head?, c.1 = 0)
    (_hmono : List.Chain' (fun a b => a ≤ b) (calls.map Prod.fst)) :
    Contig (finalize (runSamples resetState calls) endTime) ∧
    ∀ a ∈ (finalize (runSamples resetState calls) endTime).head?, a.start = 0 :=
  invC_finalize _ _ (invC_run calls resetState invC_reset)

/-- Witness for claim C1 at a concrete sample sequence. -/
theorem c1_finalize_contiguous_witness :
    (∀ c ∈ ([((0 : ℚ), "A"), (1 / 2, "B")] : List (ℚ × String)).head?, c.1 = 0) ∧
    List.Chain' (fun a b => a ≤ b)
      (([((0 : ℚ), "A"), (1 / 2, "B")] : List (ℚ × String)).map Prod.fst) ∧
    (Contig (finalize (runSamples resetState [((0 : ℚ), "A"), (1 / 2, "B")]) 1) ∧
     ∀ a ∈ (finalize (runSamples resetState [((0 : ℚ), "A"), (1 / 2, "B")]) 1).head?,
       a.start = 0) :=
  ⟨by simp, by simp [List.chain'_cons],
   c1_finalize_contiguous _ 1 (by simp) (by simp [List.chain'_cons])⟩

/-- Claim C3: over any run with non-negative, non-decreasing sample times,
every segment emitted by finalize has start at most end and both endpoints
on the hundredth grid; moreover round2 sends each exact half upward. -/
theorem c3_rounding (calls : List (ℚ × String)) (endTime : ℚ)
    (hmono : List.Chain' (fun a b => a ≤ b) ((0 : ℚ) :: calls.map Prod.fst)) :
    (∀ a ∈ finalize (runSamples resetState calls) endTime, GoodSeg a) ∧
    (∀ k : ℕ, round2 ((2 * (k : ℚ) + 1) / 200) = ((k : ℚ) + 1) / 100) := by
  constructor
  · obtain ⟨t1, hg, _⟩ :=
      invN_run calls resetState 0 ⟨by simp [resetState], by simp [resetState]⟩ hmono
    intro a ha
    unfold finalize closeSegment at ha
    by_cases hle : (runSamples resetState calls).segmentStart ≤ endTime
    · rw [if_pos hle] at ha
      rcases List.mem_append.1 ha with ha | ha
      · exact hg a ha
      · simp only [List.mem_singleton] at ha
        subst ha
        exact ⟨round2_mono hle, cent_round2 _, cent_round2 _⟩
    · rw [if_neg hle] at ha
      exact hg a ha
  · intro k
    have hk : ((2 * (k : ℚ) + 1) / 200) * 100 + 1 / 2 = (k : ℚ) + 1 := by ring
    rw [round2, hk, show ((k : ℚ) + 1) = (((k : ℤ) + 1 : ℤ) : ℚ) by push_cast; ring,
      Int.floor_intCast]

/-- Witness for claim C3 at a concrete sample sequence. -/
theorem c3_rounding_witness :
    List.Chain' (fun a b => a ≤ b)
      ((0 : ℚ) :: ([((0 : ℚ), "A")] : List (ℚ × String)).map Prod.fst) ∧
    ((∀ a ∈ finalize (runSamples resetState [((0 : ℚ), "A")]) 1, GoodSeg a) ∧
     (∀ k : ℕ, round2 ((2 * (k : ℚ) + 1) / 200) = ((k : ℚ) + 1) / 100)) :=
  ⟨by simp [List.chain'_cons], c3_rounding _ 1 (by simp [List.chain'_cons])⟩

/-- Counterexample to claim C2 as stated: from the reset state (empty cue
list, current label X), a sample at time 0 with the different label A does
not append any segment; the first-frame branch only adopts the label. -/
theorem c2_sample_cex :
    "A" ≠ resetState.currentViseme ∧
    (sample resetState 0 "A").mouthCues ≠
      resetState.mouthCues ++
        [{ start := round2 resetState.segmentStart, «end» := round2 0,
           value := resetState.currentViseme }] := by
  have h : sample resetState 0 "A" =
      { mouthCues := [], currentViseme := "A", segmentStart := 0,
        audioDuration := 0 } := by
    rw [sample_cases]
    norm_num [resetState]
  exact ⟨by simp [resetState], by rw [h]; simp⟩

/-- Claim C2 (amended): outside the first-frame case (empty cue list and
time 0) a sample with a changed label appends exactly the closed segment
and updates currentLabel and segmentStart, and a sample with an unchanged
label leaves the state unchanged; in the first-frame case the sample only
sets currentLabel to the sampled label and segmentStart to 0. -/
theorem c2_sample_step (s : RecorderState) (t : ℚ) (v : String) :
    sample s t v =
      if s.mouthCues = [] ∧ t = 0 then
        { s with currentViseme := v, segmentStart := 0 }
      else if v = s.currentViseme then s
      else
        { s with
            mouthCues := s.mouthCues ++
              [{ start := round2 s.segmentStart, «end» := round2 t,
                 value := s.currentViseme }],
            currentViseme := v, segmentStart := t } :=
  sample_cases s t v

/-- Claim C4: finalize appends the closed segment exactly when segmentStart
is at most endTime and returns the full cue list; in particular a sample at
time 0 with label B followed by finalize at 0 yields the single cue 0-0-B. -/
theorem c4_finalize (s : RecorderState) (e : ℚ) :
    (finalize s e =
      if s.segmentStart ≤ e then
        s.mouthCues ++
          [{ start := round2 s.segmentStart, «end» := round2 e,
             value := s.currentViseme }]
      else s.mouthCues) ∧
    finalize (sample resetState 0 "B") 0 =
      [{ start := 0, «end» := 0, value := "B" }] := by
  constructor
  · unfold finalize closeSegment
    by_cases h : s.segmentStart ≤ e <;> simp [h]
  · have h1 : sample resetState 0 "B" =
        { mouthCues := [], currentViseme := "B", segmentStart := 0,
          audioDuration := 0 } := by
      rw [sample_cases]
      norm_num [resetState]
    rw [h1]
    norm_num [finalize, closeSegment, round2]

/-- Claim C6: rapid alternation is never merged; the A-B-A run yields three
contiguous segments even though the label A repeats. -/
theorem c6_alternation :
    finalize (runSamples resetState [((0 : ℚ), "A"), (1 / 10, "B"), (1 / 5, "A")])
        (3 / 10) =
      [{ start := 0, «end» := 1 / 10, value := "A" },
       { start := 1 / 10, «end» := 1 / 5, value := "B" },
       { start := 1 / 5, «end» := 3 / 10, value := "A" }] := by
  have h1 : sample resetState 0 "A" =
      { mouthCues := [], currentViseme := "A", segmentStart := 0,
        audioDuration := 0 } := by
    rw [sample_cases]
    norm_num [resetState]
  have h2 : sample
      { mouthCues := [], currentViseme := "A", segmentStart := 0,
        audioDuration := 0 } (1 / 10) "B" =
      { mouthCues := [{ start := 0, «end» := 1 / 10, value := "A" }],
        currentViseme := "B", segmentStart := 1 / 10, audioDuration := 0 } := by
    rw [sample_cases]
    norm_num [round2]
    decide
  have h3 : sample
      { mouthCues := [{ start := 0, «end» := 1 / 10, value := "A" }],
        currentViseme := "B", segmentStart := 1 / 10, audioDuration := 0 }
      (1 / 5) "A" =
      { mouthCues := [{ start := 0, «end» := 1 / 10, value := "A" },
                      { start := 1 / 10, «end» := 1 / 5, value := "B" }],
        currentViseme := "A", segmentStart := 1 / 5, audioDuration := 0 } := by
    rw [sample_cases]
    norm_num [round2]
    decide
  have hr : runSamples resetState [((0 : ℚ), "A"), (1 / 10, "B"), (1 / 5, "A")] =
      { mouthCues := [{ start := 0, «end» := 1 / 10, value := "A" },
                      { start := 1 / 10, «end» := 1 / 5, value := "B" }],
        currentViseme := "A", segmentStart := 1 / 5, audioDuration := 0 } := by
    show sample (sample (sample resetState 0 "A") (1 / 10) "B") (1 / 5) "A" = _
    rw [h1, h2, h3]
  rw [hr]
  norm_num [finalize, closeSegment, round2]

/-- Claim C7: finalizeAndDownloadJSON factors as the segment-closing step
followed by the pure exportDocument; the document-building phase performs
no further state mutation and only reads the recorder state. -/
theorem c7_export_pure (s : RecorderState) (duration currentTime : ℚ)
    (fileName : String) :
    finalizeAndDownloadJSON s duration currentTime fileName =
      (closeSegment s (jsOr duration (jsOr currentTime 0)),
       exportDocument (closeSegment s (jsOr duration (jsOr currentTime 0)))
         fileName (jsOr duration (jsOr currentTime 0))) := rfl

/-- Claim C8: resetCapture is idempotent and always produces the state with
no cues, label X, segmentStart 0 and duration 0. -/
theorem c8_reset_idempotent (s : RecorderState) :
    resetCapture (resetCapture s) = resetCapture s ∧
    resetCapture s =
      { mouthCues := [], currentViseme := "X", segmentStart := 0,
        audioDuration := 0 } :=
  ⟨rfl, rfl⟩

/-- Claim C9: in the stop handler the player position is zeroed before the
close block reads it, so in the non-empty branch the strict guard
segmentStart < endTime compares against 0 and can never fire when
segmentStart is non-negative: the block leaves the state unchanged. -/
theorem c9_stop_never_closes (s : RecorderState) (h1 : s.mouthCues ≠ [])
    (h2 : 0 ≤ s.segmentStart) :
    stopCloseBlock s 0 = s := by
  have hz : jsOr 0 0 = (0 : ℚ) := by norm_num [jsOr]
  simp only [stopCloseBlock, hz]
  rw [if_neg h1, if_neg (not_lt.mpr h2)]

/-- Witness for claim C9 at a concrete non-empty recorder state. -/
theorem c9_stop_never_closes_witness :
    ({ mouthCues := [{ start := 0, «end» := 1, value := "A" }],
       currentViseme := "A", segmentStart := 1,
       audioDuration := 0 } : RecorderState).mouthCues ≠ [] ∧
    (0 : ℚ) ≤
      ({ mouthCues := [{ start := 0, «end» := 1, value := "A" }],
         currentViseme := "A", segmentStart := 1,
         audioDuration := 0 } : RecorderState).segmentStart ∧
    stopCloseBlock
      { mouthCues := [{ start := 0, «end» := 1, value := "A" }],
        currentViseme := "A", segmentStart := 1, audioDuration := 0 } 0 =
      { mouthCues := [{ start := 0, «end» := 1, value := "A" }],
        currentViseme := "A", segmentStart := 1, audioDuration := 0 } :=
  ⟨by simp, by norm_num, c9_stop_never_closes _ (by simp) (by norm_num)⟩

/-- Claim C10: when the reported duration is nonzero the export uses it as
endTime regardless of the playback position: metadata.duration is
round2(duration) and, when the close guard fires, the appended last cue
ends at round2(duration). -/
theorem c10_duration_wins (s : RecorderState) (duration currentTime : ℚ)
    (fileName : String) (hd : duration ≠ 0) :
    (finalizeAndDownloadJSON s duration currentTime fileName).2.duration =
        round2 duration ∧
    (s.segmentStart ≤ duration →
      (finalizeAndDownloadJSON s duration currentTime fileName).2.mouthCues.getLast? =
        some { start := round2 s.segmentStart, «end» := round2 duration,
               value := s.currentViseme }) := by
  have he : jsOr duration (jsOr currentTime 0) = duration := by simp [jsOr, hd]
  constructor
  · simp [finalizeAndDownloadJSON, he]
  · intro hle
    simp [finalizeAndDownloadJSON, he, hle, List.getLast?_concat]

/-- Witness for claim C10 at a concrete state and nonzero duration. -/
theorem c10_duration_wins_witness :
    ((2 : ℚ) ≠ 0) ∧
    ((finalizeAndDownloadJSON resetState 2 1 "clip.mp3").2.duration = round2 2 ∧
     (resetState.segmentStart ≤ 2 →
       (finalizeAndDownloadJSON resetState 2 1 "clip.mp3").2.mouthCues.getLast? =
         some { start := round2 resetState.segmentStart, «end» := round2 2,
                value := resetState.currentViseme })) :=
  ⟨by norm_num, c10_duration_wins resetState 2 1 "clip.mp3" (by norm_num)⟩

/-- Counterexample to claim C5 as stated: stopping with no samples taken
does not export exactly the single degenerate segment; with a loaded file
of duration 2 the downloaded document has two cues, because the stop
handler also calls the general finalize, which appends a second cue. -/
theorem c5_stop_cex :
    (stopHandler resetState 2 "a.mp3").2.mouthCues ≠
      [{ start := 0, «end» := 0, value := "X" }] := by
  have h1 : stopCloseBlock resetState 0 =
      { mouthCues := [{ start := 0, «end» := 0, value := "X" }],
        currentViseme := "X", segmentStart := 0, audioDuration := 0 } := by
    simp [stopCloseBlock, resetState]
  have he : jsOr 2 (jsOr 0 0) = (2 : ℚ) := by norm_num [jsOr]
  norm_num [stopHandler, h1, finalizeAndDownloadJSON, he, round2_zero, round2]

/-- Claim C5 (amended): when playback is stopped before any sample has been
taken, the stop handler's own close block pushes exactly the degenerate
segment 0-0-X without the general close logic, but the handler then calls
finalizeAndDownloadJSON, which appends a second closing cue ending at
round2(duration); the exported list therefore has those two cues. -/
theorem c5_stop_empty (duration : ℚ) (fileName : String) (hd : 0 ≤ duration) :
    (stopCloseBlock resetState 0).mouthCues =
      [{ start := 0, «end» := 0, value := "X" }] ∧
    (stopHandler resetState duration fileName).2.mouthCues =
      [{ start := 0, «end» := 0, value := "X" },
       { start := 0, «end» := round2 duration, value := "X" }] := by
  have h1 : stopCloseBlock resetState 0 =
      { mouthCues := [{ start := 0, «end» := 0, value := "X" }],
        currentViseme := "X", segmentStart := 0, audioDuration := 0 } := by
    simp [stopCloseBlock, resetState]
  have he : jsOr duration (jsOr 0 0) = duration := by
    by_cases h : duration = 0 <;> simp [jsOr, h]
  refine ⟨by rw [h1], ?_⟩
  simp [stopHandler, h1, finalizeAndDownloadJSON, he, hd, round2_zero]

/-- Witness for the amended claim C5 at duration 2. -/
theorem c5_stop_empty_witness :
    ((0 : ℚ) ≤ 2) ∧
    ((stopCloseBlock resetState 0).mouthCues =
       [{ start := 0, «end» := 0, value := "X" }] ∧
     (stopHandler resetState 2 "a.mp3").2.mouthCues =
       [{ start := 0, «end» := 0, value := "X" },
        { start := 0, «end» := round2 2, value := "X" }]) :=
  ⟨by norm_num, c5_stop_empty 2 "a.mp3" (by norm_num)⟩
